import Mathlib

/-!
Verification of the firmware descriptor library: version and edition
parsing, descriptor assembly, binary-firmware ordering, and the JSON
result envelope.  The definitions below are a shallow embedding of the
Rust source (`src/lib.rs`, `src/result.rs`, `src/commandline.rs`):
strings are modelled through their character lists, machine integers as
`Nat`/`Int`, fallible operations as `Option`/`Except`, and the
process-aborting `exit_with_cause` boundary as the `none` outcome of an
`Option`-valued decode.
-/

set_option maxRecDepth 4000

deriving instance DecidableEq for Except

/-- The character predicate behind Rust's `char::is_ascii_digit`:
code point between 48 (`'0'`) and 57 (`'9'`). -/
def isAsciiDigit (c : Char) : Bool :=
  decide (48 ≤ c.toNat ∧ c.toNat ≤ 57)

/-- Numeric value of an ASCII digit character. -/
def digitVal (c : Char) : Nat :=
  c.toNat - 48

/-- Rust's `str::parse::<u8>()` on a character list: an optional leading
`'+'`, then one or more ASCII digits, value at most 255. -/
def parseU8 (s : List Char) : Option Nat :=
  let digits := if s.head? = some '+' then s.tail else s
  if digits = [] then none
  else if digits.all isAsciiDigit then
    let n := digits.foldl (fun a c => a * 10 + digitVal c) 0
    if n ≤ 255 then some n else none
  else none

/-- The Unicode `White_Space` code points, the set trimmed by Rust's
`str::trim`. -/
def isRustWhitespace (c : Char) : Bool :=
  decide (c.toNat ∈ ([9, 10, 11, 12, 13, 32, 0x85, 0xA0, 0x1680,
    0x2000, 0x2001, 0x2002, 0x2003, 0x2004, 0x2005, 0x2006, 0x2007,
    0x2008, 0x2009, 0x200A, 0x2028, 0x2029, 0x202F, 0x205F, 0x3000] : List Nat))

/-- Rust's `str::trim`: drop `White_Space` characters from both ends. -/
def trimChars (l : List Char) : List Char :=
  ((l.dropWhile isRustWhitespace).reverse.dropWhile isRustWhitespace).reverse

/-- Rust's `str::split('.')` collected to a vector: the (possibly empty)
segments between the dots; `n` dots yield `n + 1` segments. -/
def splitOnDot : List Char → List (List Char)
  | [] => [[]]
  | c :: rest =>
    if c = '.' then
      [] :: splitOnDot rest
    else
      match splitOnDot rest with
      | [] => [[c]]
      | p :: ps => (c :: p) :: ps

inductive ParseFirmwareVersionError where
  | UnmatchedSubversionError
  | InvalidSubversionFormatError
deriving DecidableEq, Repr

inductive ParseFirmwareEditionError where
  | ParseEditionError
deriving DecidableEq, Repr

structure FirmwareVersion where
  major : Nat
  minor : Nat
  patch : Nat
deriving DecidableEq, Repr

/-- Rust's `FirmwareVersion::parse_subversion`.  Length-1 tokens go through
`parse::<u8>`; length-2 tokens starting with `'0'` whose second character
is an ASCII digit yield that character's code point (`char as u8`),
otherwise `parse::<u8>`; all other lengths are invalid.  Token length is
the character count (every token that parses successfully is pure ASCII,
where Rust's byte length and the character count agree, and all other
tokens yield `none` under both measures). -/
def FirmwareVersion.parse_subversion (subversion : List Char) : Option Nat :=
  if subversion.length = 1 then
    parseU8 subversion
  else if subversion.length = 2 then
    if subversion.head? = some '0' then
      match subversion[1]? with
      | some ch => if isAsciiDigit ch then some ch.toNat else parseU8 subversion
      | none => parseU8 subversion
    else
      parseU8 subversion
  else
    none

/-- Rust's `FirmwareVersion::parse`: trim, split on `'.'`, require exactly 3
parts, then parse each part with `parse_subversion`. -/
def FirmwareVersion.parse (version : String) :
    Except ParseFirmwareVersionError FirmwareVersion :=
  let arguments := splitOnDot (trimChars version.data)
  if arguments.length ≠ 3 then
    .error .UnmatchedSubversionError
  else
    match FirmwareVersion.parse_subversion (arguments.getD 0 []),
        FirmwareVersion.parse_subversion (arguments.getD 1 []),
        FirmwareVersion.parse_subversion (arguments.getD 2 []) with
    | some major, some minor, some patch => .ok ⟨major, minor, patch⟩
    | _, _, _ => .error .InvalidSubversionFormatError

/-- Rust's `impl fmt::Display for FirmwareVersion`: `"{major}.{minor}.{patch}"`,
decimal, no padding. -/
def FirmwareVersion.toDisplay (v : FirmwareVersion) : String :=
  Nat.repr v.major ++ "." ++ Nat.repr v.minor ++ "." ++ Nat.repr v.patch

inductive FirmwareEdition where
  | Standard
  | Plus
  | Premium
deriving DecidableEq, Repr

/-- Rust's `impl FromStr for FirmwareEdition`: exact, case-sensitive match
against the six accepted literals. -/
def FirmwareEdition.from_str (input : String) :
    Except ParseFirmwareEditionError FirmwareEdition :=
  if input = "STANDARD" then .ok .Standard
  else if input = "PLUS" then .ok .Plus
  else if input = "PREMIUM" then .ok .Premium
  else if input = "Standard" then .ok .Standard
  else if input = "Plus" then .ok .Plus
  else if input = "Premium" then .ok .Premium
  else .error .ParseEditionError

/-- Rust's `impl fmt::Display for FirmwareEdition`: canonical uppercase form. -/
def FirmwareEdition.toDisplay : FirmwareEdition → String
  | .Standard => "STANDARD"
  | .Plus => "PLUS"
  | .Premium => "PREMIUM"

structure Firmware where
  serial_number : String
  size : Nat
  compile_time : Int
  edition : FirmwareEdition
  version : FirmwareVersion
deriving DecidableEq, Repr

/-- Rust's `Firmware::from`.  The RFC 3339 parse followed by the UTC conversion
(`DateTime::parse_from_rfc3339` then `.to_utc()`, both from the external
`chrono` crate) is abstracted as the parameter `rfc3339`, which returns
the UTC timestamp on success; the `DateTime<Utc>` field is modelled by
that timestamp.  Each validation failure returns `None`, exactly as each
early `return None` in the source. -/
def Firmware.«from» (rfc3339 : String → Option Int) (serial_number : String)
    (size : Nat) (compile_time : String) (edition : String) (version : String) :
    Option Firmware :=
  if serial_number = "" then none
  else if size = 0 then none
  else
    match rfc3339 compile_time with
    | none => none
    | some t =>
      match FirmwareEdition.from_str edition with
      | .error _ => none
      | .ok e =>
        match FirmwareVersion.parse version with
        | .error _ => none
        | .ok v => some ⟨serial_number, size, t, e, v⟩

structure BinaryFirmware where
  timestamp : Int
  serial_number : String
deriving DecidableEq, Repr

/-- Rust's `impl Ord for BinaryFirmware`: `other.timestamp.cmp(&self.timestamp)`
— the reversed integer comparison of the timestamps; the serial number
never participates. -/
def BinaryFirmware.cmp (a other : BinaryFirmware) : Ordering :=
  compare other.timestamp a.timestamp

/-- The `≤` relation an ascending sort derives from `Ord`:
`cmp` does not answer `Greater`. -/
def BinaryFirmware.le (a b : BinaryFirmware) : Bool :=
  decide (BinaryFirmware.cmp a b ≠ Ordering.gt)

/-- Insert into a list sorted by `BinaryFirmware.le`. -/
def insertRecord (x : BinaryFirmware) : List BinaryFirmware → List BinaryFirmware
  | [] => [x]
  | y :: ys => if BinaryFirmware.le x y then x :: y :: ys else y :: insertRecord x ys

/-- Ascending insertion sort by the `Ord`-derived `≤` of `BinaryFirmware`. -/
def sortRecords (l : List BinaryFirmware) : List BinaryFirmware :=
  l.foldr insertRecord []

/-- Model of `serde_json::Value`.  Numbers are modelled as integers (the envelope
fields the code reads are booleans, strings and objects; no numeric field
is ever interpreted).  An object holds its fields as a key-value list. -/
inductive Json where
  | null
  | bool (b : Bool)
  | num (n : Int)
  | str (s : String)
  | arr (elems : List Json)
  | obj (fields : List (String × Json))

/-- Rust's `json["key"]` indexing on a `Value`: the first binding of the
key when the value is an object holding it, `Null` otherwise. -/
def Json.index (j : Json) (key : String) : Json :=
  match j with
  | .obj fields =>
    match fields.find? (fun kv => kv.1 = key) with
    | some kv => kv.2
    | none => .null
  | _ => .null

/-- Rust's `Value::as_bool`. -/
def Json.as_bool : Json → Option Bool
  | .bool b => some b
  | _ => none

/-- Rust's `Value::as_str`. -/
def Json.as_str : Json → Option String
  | .str s => some s
  | _ => none

/-- Rust's `Value::as_object`, as the object's field list. -/
def Json.as_object : Json → Option (List (String × Json))
  | .obj fields => some fields
  | _ => none

/-- Hexadecimal digit character (lowercase), for JSON string escapes. -/
def hexDigitChar (n : Nat) : Char :=
  if n < 10 then Char.ofNat (48 + n) else Char.ofNat (87 + n)

/-- JSON string escaping as `serde_json` performs it: quote, backslash,
the short control escapes, and `\u00XX` for the remaining control
characters. -/
def escapeJsonChar (c : Char) : List Char :=
  if c = '"' then ['\\', '"']
  else if c = '\\' then ['\\', '\\']
  else if c.toNat = 8 then ['\\', 'b']
  else if c.toNat = 9 then ['\\', 't']
  else if c.toNat = 10 then ['\\', 'n']
  else if c.toNat = 12 then ['\\', 'f']
  else if c.toNat = 13 then ['\\', 'r']
  else if c.toNat < 32 then
    ['\\', 'u', '0', '0', hexDigitChar (c.toNat / 16), hexDigitChar (c.toNat % 16)]
  else [c]

/-- A JSON string literal: surrounding quotes plus escaping. -/
def quoteJson (s : String) : String :=
  ⟨'"' :: s.data.foldr (fun c acc => escapeJsonChar c ++ acc) ['"']⟩

mutual

/-- Rust's `serde_json::to_string`: compact serialization, no added whitespace.
Object fields are emitted in the order of the field list. -/
def Json.serialize : Json → String
  | .null => "null"
  | .bool b => if b then "true" else "false"
  | .num n => toString n
  | .str s => quoteJson s
  | .arr es => "[" ++ Json.serializeArray es ++ "]"
  | .obj fs => "\x7b" ++ Json.serializeObject fs ++ "\x7d"

/-- Comma-separated serialization of array elements. -/
def Json.serializeArray : List Json → String
  | [] => ""
  | [j] => Json.serialize j
  | j :: rest => Json.serialize j ++ "," ++ Json.serializeArray rest

/-- Comma-separated serialization of object fields, `"key":value`. -/
def Json.serializeObject : List (String × Json) → String
  | [] => ""
  | [(k, v)] => quoteJson k ++ ":" ++ Json.serialize v
  | (k, v) :: rest => quoteJson k ++ ":" ++ Json.serialize v ++ "," ++ Json.serializeObject rest

end

structure ResultResponse where
  response : String
  ok_or_fail : Bool
  message : String
  data : String
deriving DecidableEq, Repr

/-- Rust's `ResultResponse::is_ok`. -/
def ResultResponse.is_ok (r : ResultResponse) : Bool :=
  r.ok_or_fail

/-- Rust's `ResultResponse::is_failed`. -/
def ResultResponse.is_failed (r : ResultResponse) : Bool :=
  !r.ok_or_fail

/-- Rust's `ResultResponse::get_message`.  The accessor's doc comment promises a
panic when the result is ok, but the body is a plain field read: it is
total, so the embedding needs no partiality. -/
def ResultResponse.get_message (r : ResultResponse) : String :=
  r.message

/-- Rust's `ResultResponse::get_data`. -/
def ResultResponse.get_data (r : ResultResponse) : String :=
  r.data

/-- Rust's `ResultResponse::new` followed by `parse_response`, the only way the
source builds a `ResultResponse`.  `serde_json::from_str` (external) is
abstracted as the parameter `from_str`.  Every unrecoverable path —
`exit_with_cause` on an empty response, `exit_with_cause` on a JSON parse
error, and the panicking `unwrap` on a missing or non-boolean `status` —
is modelled as `none`: the function never returns a response value there.
On the normal path the fields are filled exactly as `parse_response`
fills them: `status` as the boolean, `message` via `as_str` defaulted to
`""`, `data` as the compact serialization when the `data` field is an
object and the initial `""` otherwise. -/
def ResultResponse.parse_response (from_str : String → Option Json)
    (response : String) : Option ResultResponse :=
  if response = "" then
    none
  else
    match from_str response with
    | none => none
    | some json =>
      match (Json.index json "status").as_bool with
      | none => none
      | some status =>
        let message := ((Json.index json "message").as_str).getD ""
        let data :=
          match (Json.index json "data").as_object with
          | some data_obj => Json.serialize (.obj data_obj)
          | none => ""
        some ⟨response, status, message, data⟩

/-! Helper lemmas on the version grammar. -/

set_option linter.unnecessarySeqFocus false

lemma parseU8_one_le {c : Char} {n : Nat} (h : parseU8 [c] = some n) : n ≤ 9 := by
  simp only [parseU8, List.head?_cons, Option.some.injEq, List.tail_cons,
    List.all_cons, List.all_nil, Bool.and_true, Bool.and_eq_true, isAsciiDigit, digitVal,
    List.foldl_cons, List.foldl_nil, decide_eq_true_eq] at h
  split_ifs at h <;> simp_all [isAsciiDigit] <;> omega

lemma parseU8_two_le {c₁ c₂ : Char} {n : Nat} (h : parseU8 [c₁, c₂] = some n) : n ≤ 99 := by
  simp only [parseU8, List.head?_cons, Option.some.injEq, List.tail_cons,
    List.all_cons, List.all_nil, Bool.and_true, Bool.and_eq_true, isAsciiDigit, digitVal,
    List.foldl_cons, List.foldl_nil, decide_eq_true_eq] at h
  split_ifs at h <;> simp_all [isAsciiDigit] <;> omega

lemma parse_subversion_le {l : List Char} {n : Nat}
    (h : FirmwareVersion.parse_subversion l = some n) : n ≤ 99 := by
  match l with
  | [] => simp [FirmwareVersion.parse_subversion] at h
  | [c] =>
    simp only [FirmwareVersion.parse_subversion, List.length_singleton, if_true] at h
    exact le_trans (parseU8_one_le h) (by omega)
  | [c₁, c₂] =>
    simp only [FirmwareVersion.parse_subversion, List.length_cons, List.length_nil] at h
    norm_num at h
    split_ifs at h with h1 h2
    · simp only [Option.some.injEq] at h
      simp only [isAsciiDigit, decide_eq_true_eq] at h2
      omega
    · exact parseU8_two_le h
    · exact parseU8_two_le h
  | c₁ :: c₂ :: c₃ :: rest =>
    simp [FirmwareVersion.parse_subversion] at h

lemma isAsciiDigit_not_ws {c : Char} (h : isAsciiDigit c = true) :
    isRustWhitespace c = false := by
  simp only [isAsciiDigit, decide_eq_true_eq] at h
  simp only [isRustWhitespace, List.mem_cons, List.not_mem_nil, or_false,
    decide_eq_false_iff_not]
  intro hmem
  rcases hmem with h'|h'|h'|h'|h'|h'|h'|h'|h'|h'|h'|h'|h'|h'|h'|h'|h'|h'|h'|h'|h'|h'|h'|h'|h' <;>
    omega

lemma dropWhile_all_false {p : Char → Bool} {l : List Char}
    (h : ∀ c ∈ l, p c = false) : List.dropWhile p l = l := by
  cases l with
  | nil => rfl
  | cons c rest =>
    rw [List.dropWhile_cons_of_neg]
    simp [h c (by simp)]

lemma trimChars_id {l : List Char} (h : ∀ c ∈ l, isRustWhitespace c = false) :
    trimChars l = l := by
  unfold trimChars
  rw [dropWhile_all_false h]
  rw [dropWhile_all_false (fun c hc => h c (List.mem_reverse.mp hc))]
  exact List.reverse_reverse l

lemma splitOnDot_ne_nil (l : List Char) : splitOnDot l ≠ [] := by
  cases l with
  | nil => simp [splitOnDot]
  | cons c rest =>
    simp only [splitOnDot]
    split
    · simp
    · split <;> simp

lemma splitOnDot_no_dot {l : List Char} (h : ∀ c ∈ l, c ≠ '.') :
    splitOnDot l = [l] := by
  induction l with
  | nil => rfl
  | cons c rest ih =>
    simp only [splitOnDot]
    rw [if_neg (h c (by simp))]
    rw [ih (fun x hx => h x (by simp [hx]))]

lemma splitOnDot_append {a rest : List Char} (h : ∀ c ∈ a, c ≠ '.') :
    splitOnDot (a ++ '.' :: rest) = a :: splitOnDot rest := by
  induction a with
  | nil =>
    simp only [List.nil_append, splitOnDot, if_true]
  | cons c tl ih =>
    simp only [List.cons_append, splitOnDot]
    rw [if_neg (h c (by simp))]
    simp only [List.append_eq] at *
    rw [ih (fun x hx => h x (by simp [hx]))]

lemma subv_repr_aux : ∀ m : Fin 100,
    FirmwareVersion.parse_subversion (Nat.repr m.val).data = some m.val := by decide

lemma repr_digits_aux : ∀ m : Fin 100,
    (Nat.repr m.val).data.all isAsciiDigit = true := by decide

/-- Lemma: `parse_subversion` recovers every component at most 99 from its
decimal representation. -/
lemma parse_subversion_repr {n : Nat} (h : n ≤ 99) :
    FirmwareVersion.parse_subversion (Nat.repr n).data = some n :=
  subv_repr_aux ⟨n, by omega⟩

lemma repr_all_digits {n : Nat} (h : n ≤ 99) :
    ∀ c ∈ (Nat.repr n).data, isAsciiDigit c = true := by
  have := repr_digits_aux ⟨n, by omega⟩
  simpa [List.all_eq_true] using this

lemma isAsciiDigit_ne_dot {c : Char} (h : isAsciiDigit c = true) : c ≠ '.' := by
  intro he
  subst he
  simp [isAsciiDigit] at h


/-! Claim theorems. -/

/-- C2, counterexample: `FirmwareVersion::parse("05.1.1")` does yield 53
— the code point of `'5'` — as its major component, so the claim that
the leading token escapes the quirk is false on the code. -/
theorem c2_quirk_counterexample :
    (FirmwareVersion.parse "05.1.1").toOption.map FirmwareVersion.major = some 53 := by
  decide

/-- C2, amended: the leading-zero code-point quirk applies to every
token position, the leading one included: `parse("05.1.1")` succeeds
with major 53 (the code point of `'5'`), minor 1 and patch 1. -/
theorem c2_quirk_applies_to_major :
    FirmwareVersion.parse "05.1.1" = .ok ⟨53, 1, 1⟩ := by
  decide

/-- C5: `FirmwareEdition::from_str` succeeds exactly on the six
case-sensitive literals with the stated mapping, fails with
`ParseEditionError` on everything else (`"premium"` included), and the
display of every parsed edition is the canonical uppercase form. -/
theorem c5_edition_exact_match :
    (∀ s : String,
      (FirmwareEdition.from_str s = .ok .Standard ↔ s = "STANDARD" ∨ s = "Standard") ∧
      (FirmwareEdition.from_str s = .ok .Plus ↔ s = "PLUS" ∨ s = "Plus") ∧
      (FirmwareEdition.from_str s = .ok .Premium ↔ s = "PREMIUM" ∨ s = "Premium") ∧
      (FirmwareEdition.from_str s = .error .ParseEditionError ↔
        s ∉ (["STANDARD", "Standard", "PLUS", "Plus", "PREMIUM", "Premium"] : List String))) ∧
    FirmwareEdition.from_str "premium" = .error .ParseEditionError ∧
    FirmwareEdition.toDisplay .Standard = "STANDARD" ∧
    FirmwareEdition.toDisplay .Plus = "PLUS" ∧
    FirmwareEdition.toDisplay .Premium = "PREMIUM" := by
  refine ⟨fun s => ?_, by decide, rfl, rfl, rfl⟩
  unfold FirmwareEdition.from_str
  split_ifs with h1 h2 h3 h4 h5 h6 <;> simp_all

/-- C7: the `BinaryFirmware` comparator is exactly the reversed integer
comparison of the timestamps (so equal timestamps compare equal whatever
the serial numbers), structural equality requires both fields to agree,
and an ascending sort by the comparator puts the larger timestamp
first. -/
theorem c7_ordering_by_timestamp_desc :
    (∀ a b : BinaryFirmware, BinaryFirmware.cmp a b = compare b.timestamp a.timestamp) ∧
    (∀ a b : BinaryFirmware, a.timestamp = b.timestamp → BinaryFirmware.cmp a b = Ordering.eq) ∧
    (∀ a b : BinaryFirmware,
      a = b ↔ a.timestamp = b.timestamp ∧ a.serial_number = b.serial_number) ∧
    sortRecords [⟨100, "a"⟩, ⟨200, "b"⟩] = [⟨200, "b"⟩, ⟨100, "a"⟩] := by
  refine ⟨fun a b => rfl, fun a b h => ?_, fun a b => ?_, by decide⟩
  · unfold BinaryFirmware.cmp
    rw [h]
    exact compare_eq_iff_eq.mpr rfl
  · cases a
    cases b
    simp

lemma parse_subversion_quirk {ch : Char} (h : isAsciiDigit ch = true) :
    FirmwareVersion.parse_subversion ['0', ch] = some ch.toNat := by
  simp [FirmwareVersion.parse_subversion, h]

lemma list_length_three {α : Type} {l : List α} (h : l.length = 3) :
    ∃ a b c, l = [a, b, c] := by
  rcases l with _ | ⟨a, _ | ⟨b, _ | ⟨c, _ | ⟨d, t⟩⟩⟩⟩
  · simp at h
  · simp at h
  · simp at h
  · exact ⟨a, b, c, rfl⟩
  · simp at h

/-- C1: whenever the minor token of the trimmed, dot-split input is a
2-character token `['0', ch]` with `ch` an ASCII digit, a successful
parse yields `ch`'s code point as the minor component; concretely,
`parse("1.05.1")` succeeds as `{1, 53, 1}`. -/
theorem c1_minor_leading_zero_quirk :
    (∀ (s : String) (a b c : List Char) (ch : Char) (v : FirmwareVersion),
      splitOnDot (trimChars s.data) = [a, b, c] →
      b = ['0', ch] → isAsciiDigit ch = true →
      FirmwareVersion.parse s = .ok v → v.minor = ch.toNat) ∧
    FirmwareVersion.parse "1.05.1" = .ok ⟨1, 53, 1⟩ := by
  refine ⟨?_, by decide⟩
  intro s a b c ch v hsplit hb hch hok
  subst hb
  simp only [FirmwareVersion.parse, hsplit, List.length_cons, List.length_nil, ne_eq,
    List.getD_cons_zero, List.getD_cons_succ, parse_subversion_quirk hch] at hok
  norm_num at hok
  rcases ha : FirmwareVersion.parse_subversion a with _ | x <;> rw [ha] at hok
  · cases hok
  · rcases hc : FirmwareVersion.parse_subversion c with _ | z <;> rw [hc] at hok
    · cases hok
    · cases hok
      rfl

/-- C3: `parse` trims and dot-splits its input; it fails with
`UnmatchedSubversionError` exactly when the split does not have 3 parts,
and with `InvalidSubversionFormatError` exactly when it has 3 parts and
some part is rejected by `parse_subversion`; concretely `"1.2"` is
unmatched and `"1.2.abc"` has an invalid subversion. -/
theorem c3_error_taxonomy :
    (∀ s : String,
      (FirmwareVersion.parse s = .error .UnmatchedSubversionError ↔
        (splitOnDot (trimChars s.data)).length ≠ 3) ∧
      (FirmwareVersion.parse s = .error .InvalidSubversionFormatError ↔
        (splitOnDot (trimChars s.data)).length = 3 ∧
          ∃ p ∈ splitOnDot (trimChars s.data), FirmwareVersion.parse_subversion p = none)) ∧
    FirmwareVersion.parse "1.2" = .error .UnmatchedSubversionError ∧
    FirmwareVersion.parse "1.2.abc" = .error .InvalidSubversionFormatError := by
  refine ⟨fun s => ?_, by decide, by decide⟩
  rcases hll : splitOnDot (trimChars s.data) with _ | ⟨a, _ | ⟨b, _ | ⟨c, _ | ⟨d, t⟩⟩⟩⟩
  · simp [FirmwareVersion.parse, hll]
  · simp [FirmwareVersion.parse, hll]
  · simp [FirmwareVersion.parse, hll]
  · rcases ha : FirmwareVersion.parse_subversion a with _ | x <;>
      rcases hb : FirmwareVersion.parse_subversion b with _ | y <;>
      rcases hc : FirmwareVersion.parse_subversion c with _ | z <;>
      simp [FirmwareVersion.parse, hll, ha, hb, hc]
  · simp [FirmwareVersion.parse, hll]

/-- C6: `Firmware::from` yields `none` exactly when the serial number is
empty, the size is zero, the compile-time text fails the RFC 3339 parse,
the edition text fails `FirmwareEdition::from_str`, or the version text
fails `FirmwareVersion::parse`; when it yields a firmware, that firmware
holds exactly the given serial number and size and the parsed timestamp,
edition and version (all-or-nothing); in particular an empty serial
number fails whatever the other arguments are. -/
theorem c6_assembly_all_or_nothing :
    (∀ (rfc3339 : String → Option Int) (sn : String) (sz : Nat) (ct ed vs : String),
      (Firmware.«from» rfc3339 sn sz ct ed vs = none ↔
        sn = "" ∨ sz = 0 ∨ rfc3339 ct = none ∨
          (∃ er, FirmwareEdition.from_str ed = .error er) ∨
          (∃ er, FirmwareVersion.parse vs = .error er)) ∧
      (∀ fw, Firmware.«from» rfc3339 sn sz ct ed vs = some fw →
        fw.serial_number = sn ∧ fw.size = sz ∧ rfc3339 ct = some fw.compile_time ∧
          FirmwareEdition.from_str ed = .ok fw.edition ∧
          FirmwareVersion.parse vs = .ok fw.version)) ∧
    (∀ (rfc3339 : String → Option Int) (sz : Nat) (ct ed vs : String),
      Firmware.«from» rfc3339 "" sz ct ed vs = none) := by
  constructor
  · intro rfc3339 sn sz ct ed vs
    by_cases h1 : sn = ""
    · simp [Firmware.«from», h1]
    · by_cases h2 : sz = 0
      · simp [Firmware.«from», h1, h2]
      · rcases hr : rfc3339 ct with _ | t
        · simp [Firmware.«from», h1, h2, hr]
        · rcases he : FirmwareEdition.from_str ed with er | e
          · constructor
            · constructor
              · intro _
                exact Or.inr (Or.inr (Or.inr (Or.inl ⟨er, rfl⟩)))
              · intro _
                simp [Firmware.«from», h1, h2, hr, he]
            · intro fw hfw
              simp [Firmware.«from», h1, h2, hr, he] at hfw
          · rcases hv : FirmwareVersion.parse vs with er | v
            · constructor
              · constructor
                · intro _
                  exact Or.inr (Or.inr (Or.inr (Or.inr ⟨er, rfl⟩)))
                · intro _
                  simp [Firmware.«from», h1, h2, hr, he, hv]
              · intro fw hfw
                simp [Firmware.«from», h1, h2, hr, he, hv] at hfw
            · constructor
              · simp [Firmware.«from», h1, h2, hr, he, hv]
              · intro fw hfw
                simp only [Firmware.«from», h1, h2, hr, he, hv, if_false, if_neg] at hfw
                cases hfw
                exact ⟨rfl, rfl, rfl, rfl, rfl⟩
  · intro rfc3339 sz ct ed vs
    simp [Firmware.«from»]

/-- C8: for any input text that the JSON layer parses to a value with a
boolean `status` field (the JSON layer rejects the empty text, as
`serde_json` does), the decode returns normally, with `ok_or_fail` that
boolean, `message` the `message` field when it is a string and `""`
otherwise, and `data` the compact serialization of the `data` field when
it is an object and `""` otherwise; the two concrete envelopes of the
specification decode accordingly. -/
theorem c8_envelope_decode :
    (∀ (from_str : String → Option Json) (txt : String) (j : Json) (b : Bool),
      from_str "" = none →
      from_str txt = some j →
      (Json.index j "status").as_bool = some b →
      ResultResponse.parse_response from_str txt =
        some ⟨txt, b, ((Json.index j "message").as_str).getD "",
          (((Json.index j "data").as_object).map (fun o => Json.serialize (.obj o))).getD ""⟩) ∧
    (∀ from_str : String → Option Json,
      from_str "\x7b\"status\":true,\"data\":\x7b\"x\":1\x7d\x7d" =
          some (.obj [("status", .bool true), ("data", .obj [("x", .num 1)])]) →
      ResultResponse.parse_response from_str "\x7b\"status\":true,\"data\":\x7b\"x\":1\x7d\x7d" =
        some ⟨"\x7b\"status\":true,\"data\":\x7b\"x\":1\x7d\x7d", true, "", "\x7b\"x\":1\x7d"⟩) ∧
    (∀ from_str : String → Option Json,
      from_str "\x7b\"status\":false,\"message\":\"bad\"\x7d" =
          some (.obj [("status", .bool false), ("message", .str "bad")]) →
      ResultResponse.parse_response from_str "\x7b\"status\":false,\"message\":\"bad\"\x7d" =
          some ⟨"\x7b\"status\":false,\"message\":\"bad\"\x7d", false, "bad", ""⟩ ∧
        (ResultResponse.mk "\x7b\"status\":false,\"message\":\"bad\"\x7d" false "bad" "").is_failed
          = true) := by
  refine ⟨?_, ?_, ?_⟩
  · intro from_str txt j b hempty hparse hstatus
    have htxt : ¬(txt = "") := by
      intro h
      rw [h, hempty] at hparse
      cases hparse
    rcases ho : (Json.index j "data").as_object with _ | o <;>
      simp [ResultResponse.parse_response, htxt, hparse, hstatus, ho]
  · intro from_str h
    unfold ResultResponse.parse_response
    rw [if_neg (by decide), h]
    rfl
  · intro from_str h
    refine ⟨?_, rfl⟩
    unfold ResultResponse.parse_response
    rw [if_neg (by decide), h]
    rfl

/-- C9: the decode hits the fatal path — modelled as `none`, never a
normal envelope — exactly when the text is empty, the JSON layer rejects
it, or the parsed value has no boolean `status` field; in particular the
empty text never yields a normal value. -/
theorem c9_fatal_path :
    (∀ (from_str : String → Option Json) (txt : String),
      ResultResponse.parse_response from_str txt = none ↔
        txt = "" ∨ from_str txt = none ∨
          ∃ j, from_str txt = some j ∧ (Json.index j "status").as_bool = none) ∧
    (∀ from_str : String → Option Json,
      ResultResponse.parse_response from_str "" = none) := by
  constructor
  · intro from_str txt
    by_cases h : txt = ""
    · simp [ResultResponse.parse_response, h]
    · rcases hf : from_str txt with _ | j
      · simp [ResultResponse.parse_response, h, hf]
      · rcases hs : (Json.index j "status").as_bool with _ | b <;>
          simp [ResultResponse.parse_response, h, hf, hs]
  · intro from_str
    simp [ResultResponse.parse_response]

/-- C10: `get_message` is a total field read — it returns the stored
message for every constructed response, never panicking, even in the
succeeded state its documentation claims to forbid; decoding a succeeded
envelope carrying message `"hi"` and reading it back returns `"hi"`. -/
theorem c10_get_message_total :
    (∀ r : ResultResponse, r.get_message = r.message) ∧
    (∀ from_str : String → Option Json,
      from_str "\x7b\"status\":true,\"message\":\"hi\"\x7d" =
          some (.obj [("status", .bool true), ("message", .str "hi")]) →
      ∃ r, ResultResponse.parse_response from_str "\x7b\"status\":true,\"message\":\"hi\"\x7d"
            = some r ∧
        r.is_ok = true ∧ r.get_message = "hi") := by
  refine ⟨fun r => rfl, ?_⟩
  intro from_str h
  refine ⟨⟨"\x7b\"status\":true,\"message\":\"hi\"\x7d", true, "hi", ""⟩, ?_, rfl, rfl⟩
  unfold ResultResponse.parse_response
  rw [if_neg (by decide), h]
  rfl

lemma parse_ok_bounds {s : String} {v : FirmwareVersion}
    (h : FirmwareVersion.parse s = .ok v) :
    v.major ≤ 99 ∧ v.minor ≤ 99 ∧ v.patch ≤ 99 := by
  rcases hll : splitOnDot (trimChars s.data) with _ | ⟨a, _ | ⟨b, _ | ⟨c, _ | ⟨d, t⟩⟩⟩⟩
  · simp [FirmwareVersion.parse, hll] at h
  · simp [FirmwareVersion.parse, hll] at h
  · simp [FirmwareVersion.parse, hll] at h
  · rcases ha : FirmwareVersion.parse_subversion a with _ | x <;>
      rcases hb : FirmwareVersion.parse_subversion b with _ | y <;>
      rcases hc : FirmwareVersion.parse_subversion c with _ | z <;>
      simp [FirmwareVersion.parse, hll, ha, hb, hc] at h
    subst h
    exact ⟨parse_subversion_le ha, parse_subversion_le hb, parse_subversion_le hc⟩
  · simp [FirmwareVersion.parse, hll] at h

lemma dot_not_ws : isRustWhitespace '.' = false := by decide

lemma parse_toDisplay {v : FirmwareVersion} (h1 : v.major ≤ 99) (h2 : v.minor ≤ 99)
    (h3 : v.patch ≤ 99) : FirmwareVersion.parse v.toDisplay = .ok v := by
  obtain ⟨ma, mi, pa⟩ := v
  simp only at h1 h2 h3
  have hdata : (FirmwareVersion.toDisplay ⟨ma, mi, pa⟩).data =
      (Nat.repr ma).data ++ '.' :: ((Nat.repr mi).data ++ '.' :: (Nat.repr pa).data) := by
    simp [FirmwareVersion.toDisplay, String.data_append]
  have hd1 := repr_all_digits h1
  have hd2 := repr_all_digits h2
  have hd3 := repr_all_digits h3
  have hnws : ∀ c ∈ (FirmwareVersion.toDisplay ⟨ma, mi, pa⟩).data,
      isRustWhitespace c = false := by
    rw [hdata]
    intro c hc
    rcases List.mem_append.mp hc with hc1 | hc1
    · exact isAsciiDigit_not_ws (hd1 c hc1)
    · rcases List.mem_cons.mp hc1 with rfl | hc2
      · exact dot_not_ws
      · rcases List.mem_append.mp hc2 with hc3 | hc3
        · exact isAsciiDigit_not_ws (hd2 c hc3)
        · rcases List.mem_cons.mp hc3 with rfl | hc4
          · exact dot_not_ws
          · exact isAsciiDigit_not_ws (hd3 c hc4)
  have hsplit : splitOnDot (trimChars (FirmwareVersion.toDisplay ⟨ma, mi, pa⟩).data) =
      [(Nat.repr ma).data, (Nat.repr mi).data, (Nat.repr pa).data] := by
    rw [trimChars_id hnws, hdata]
    rw [splitOnDot_append (fun c hc => isAsciiDigit_ne_dot (hd1 c hc))]
    rw [splitOnDot_append (fun c hc => isAsciiDigit_ne_dot (hd2 c hc))]
    rw [splitOnDot_no_dot (fun c hc => isAsciiDigit_ne_dot (hd3 c hc))]
  simp [FirmwareVersion.parse, hsplit, parse_subversion_repr h1,
    parse_subversion_repr h2, parse_subversion_repr h3]

/-- C4: whenever `parse` succeeds with version `v`, the display of `v`
is `"{major}.{minor}.{patch}"` in plain decimal, and parsing that
displayed string succeeds with `v` again: parse-after-display is the
identity on the image of `parse`. -/
theorem c4_display_roundtrip :
    (∀ (s : String) (v : FirmwareVersion),
      FirmwareVersion.parse s = .ok v →
      v.toDisplay = Nat.repr v.major ++ "." ++ Nat.repr v.minor ++ "." ++ Nat.repr v.patch ∧
      FirmwareVersion.parse v.toDisplay = .ok v) ∧
    FirmwareVersion.parse (FirmwareVersion.toDisplay ⟨1, 2, 3⟩) = .ok ⟨1, 2, 3⟩ := by
  refine ⟨?_, by decide⟩
  intro s v h
  obtain ⟨b1, b2, b3⟩ := parse_ok_bounds h
  exact ⟨rfl, parse_toDisplay b1 b2 b3⟩
